import Mathlib

/-
Verification development for the use-dynamodb-webhooks library
(src/index.ts).  The TypeScript source is shallowly embedded: JS objects
become insertion-ordered association lists with JS-spread update
semantics, the WHATWG URL / qs / lodash library calls used by the code
are modelled by executable Lean functions restricted to the ASCII inputs
the library is exercised with, and the recursive retry loop of
Webhooks.trigger becomes a well-founded recursion over the remaining
retry budget.
-/

namespace Webhooks

/-- Scalar values appearing in JS request bodies and metadata records
(`z.record(z.any())` in the source, restricted to the scalar cases the
spec admits). -/
inductive JSValue where
  | str (s : String)
  | num (n : Int)
  | bool (b : Bool)
deriving DecidableEq, Repr

/-- String rendering of a JSValue as JS `String(v)` / qs would produce it. -/
def JSValue.plain : JSValue → String
  | .str s => s
  | .num n => toString n
  | .bool b => Bool.rec "false" "true" b

/-- HTTP methods accepted by the `request` zod schema
(`z.enum(['DELETE','GET','HEAD','POST','PUT'])`). -/
inductive Method where
  | DELETE | GET | HEAD | POST | PUT
deriving DecidableEq, Repr

/-- `logStatus = z.enum(['FAIL', 'SUCCESS'])`. -/
inductive LogStatus where
  | FAIL | SUCCESS
deriving DecidableEq, Repr

deriving instance DecidableEq for Except

/-! ### JS object (association list) operations

JS object literals and spreads keep keys in insertion order; assigning to
an existing key updates the value in place, a new key is appended. -/

/-- `obj[k] = v` / spread-merge of one key: update in place if the key
exists, append otherwise (JS object assignment semantics). -/
def jsInsert (m : List (String × α)) (k : String) (v : α) : List (String × α) :=
  if m.any (fun p => p.1 == k) then
    m.map (fun p => if p.1 == k then (k, v) else p)
  else
    m ++ [(k, v)]

/-- `{...m, ...b}`: spread b over m, key by key. -/
def jsSpread (m b : List (String × α)) : List (String × α) :=
  b.foldl (fun acc p => jsInsert acc p.1 p.2) m

/-- Property lookup on a JS object (first binding; objects built with
jsInsert have unique keys). -/
def jsLookup (m : List (String × α)) (k : String) : Option α :=
  (m.find? (fun p => p.1 == k)).map (fun p => p.2)

/-- `Object.fromEntries(entries)`: later entries win, first position kept. -/
def fromEntries (l : List (String × String)) : List (String × String) :=
  l.foldl (fun acc p => jsInsert acc p.1 p.2) []

/-! ### String helpers modelling the JS library calls used by the code -/

/-- ASCII lowercasing, as `Headers` applies to header names. -/
def lowerStr (s : String) : String :=
  String.mk (s.data.map Char.toLower)

/-- Boolean prefix test on character lists. -/
def isPfxOf : List Char → List Char → Bool
  | [], _ => true
  | _ :: _, [] => false
  | a :: as, b :: bs => a == b && isPfxOf as bs

/-- Does `sep` occur as a contiguous subsequence of `l`? -/
def occursIn (sep : List Char) : List Char → Bool
  | [] => isPfxOf sep []
  | x :: xs => isPfxOf sep (x :: xs) || occursIn sep xs

/-- Split at the first occurrence of `sep`: prefix before it and suffix
after it, none when `sep` does not occur. -/
def splitFirst (sep : List Char) : List Char → Option (List Char × List Char)
  | [] => if isPfxOf sep [] then some ([], []) else none
  | x :: xs =>
    if isPfxOf sep (x :: xs) then some ([], (x :: xs).drop sep.length)
    else (splitFirst sep xs).map (fun pr => (x :: pr.1, pr.2))

/-- `_.includes(s, sub)` on strings: case-sensitive substring test
(`String.prototype.includes`). -/
def strIncludes (s sub : String) : Bool :=
  occursIn sub.data s.data

/-- `_.includes(contentType, sub)` where `contentType` may be `null`
(lodash returns false on a null collection). -/
def ctIncludes (ct : Option String) (sub : String) : Bool :=
  match ct with
  | none => false
  | some s => strIncludes s sub

/-- Hex digit (uppercase), for percent-encoding. -/
def hexDigit (n : Nat) : Char :=
  if n < 10 then Char.ofNat (48 + n) else Char.ofNat (55 + n)

/-- Percent-encoding of one character as qs / encodeURIComponent does for
ASCII input (unreserved characters pass through). -/
def pctEncodeChar (c : Char) : String :=
  if c.isAlphanum || c == '-' || c == '_' || c == '.' || c == '~' then
    String.singleton c
  else
    String.mk ['%', hexDigit (c.toNat / 16 % 16), hexDigit (c.toNat % 16)]

/-- Component encoding used by qs for keys and stringified values. -/
def uenc (s : String) : String :=
  String.join (s.data.map pctEncodeChar)

/-- `k=v` pairs joined with `&`, as qs.stringify renders a flat object. -/
def qsPairs (items : List (String × JSValue)) : String :=
  String.intercalate "&" (items.map (fun p => uenc p.1 ++ "=" ++ uenc p.2.plain))

/-- `qs.stringify(obj)` with the default `addQueryPrefix: true` used by
the use-qs wrapper: empty object renders as the empty string (no
trailing separators), otherwise a leading `?`. -/
def qsWithPfx (items : List (String × JSValue)) : String :=
  if items.isEmpty then "" else "?" ++ qsPairs items

/-- `qs.stringify(obj, { addQueryPrefix: false })`. -/
def qsNoPfx (items : List (String × JSValue)) : String :=
  qsPairs items

/-- Minimal JSON string escaping (quote and backslash; the inputs the
claims exercise contain neither). -/
def jsonEsc (s : String) : String :=
  String.join (s.data.map (fun c =>
    if c == '"' then "\\\"" else if c == '\\' then "\\\\" else String.singleton c))

/-- JSON rendering of a scalar value. -/
def JSValue.json : JSValue → String
  | .str s => "\"" ++ jsonEsc s ++ "\""
  | .num n => toString n
  | .bool b => Bool.rec "false" "true" b

/-- `JSON.stringify(obj)` for a flat object of scalars. -/
def jsonStringify (b : List (String × JSValue)) : String :=
  "\x7b" ++ String.intercalate "," (b.map (fun p => "\"" ++ jsonEsc p.1 ++ "\":" ++ p.2.json)) ++ "\x7d"

/-! ### URL model (`new URL(...)` restricted to `scheme://host/path?query`) -/

/-- The pieces of a parsed URL that the code reads: `protocol` (with the
trailing colon), `host`, `pathname`, and `searchParams` in order. -/
structure UrlParts where
  protocol : String
  host : String
  pathname : String
  params : List (String × String)
deriving DecidableEq, Repr

/-- Split a character list on a separator character. -/
def splitOnCh (c : Char) : List Char → List (List Char)
  | [] => [[]]
  | x :: xs =>
    if x = c then [] :: splitOnCh c xs
    else
      match splitOnCh c xs with
      | [] => [[x]]
      | h :: t => (x :: h) :: t

/-- One `k=v` component of a query string (value is everything after the
first `=`, as URLSearchParams does). -/
def parseKV (l : List Char) : String × String :=
  match splitOnCh '=' l with
  | [] => ("", "")
  | k :: rest => (String.mk k, String.intercalate "=" (rest.map String.mk))

/-- Query-string parsing, `a=1&b=2` style. -/
def parseQuery (l : List Char) : List (String × String) :=
  if l.isEmpty then [] else (splitOnCh '&' l).map parseKV

/-- `new URL(s)` for absolute URLs of the shape `scheme://host[/path][?query]`
(the shape every URL in the library's schema-validated inputs has).
Returns none where the constructor would throw. -/
def parseURL (s : String) : Option UrlParts :=
  match splitFirst "://".data s.data with
  | some (sch, rest) =>
    if sch.isEmpty then none
    else
      let hostRem := rest.span (fun c => c != '/' && c != '?')
      if hostRem.1.isEmpty then none
      else
        match hostRem.2 with
        | [] => some ⟨String.mk sch ++ ":", String.mk hostRem.1, "/", []⟩
        | '?' :: q => some ⟨String.mk sch ++ ":", String.mk hostRem.1, "/", parseQuery q⟩
        | rem =>
          let pathQ := rem.span (fun c => c != '?')
          let ps := match pathQ.2 with
            | [] => []
            | _ :: q => parseQuery q
          some ⟨String.mk sch ++ ":", String.mk hostRem.1, String.mk pathQ.1, ps⟩
  | none => none

/-- Lift string-valued search params to JSValue entries (what
`Object.fromEntries(url.searchParams.entries())` contributes to the merge). -/
def strParams (l : List (String × String)) : List (String × JSValue) :=
  l.map (fun p => (p.1, JSValue.str p.2))

/-- Re-rendering of a parsed URL exactly as the GET/HEAD/DELETE branch of
createFetchRequest rebuilds it: `protocol//host pathname qs`. -/
def renderURL (u : UrlParts) : String :=
  u.protocol ++ "//" ++ u.host ++ u.pathname ++ qsWithPfx (strParams u.params)

/-! ### RequestBuilder: `createFetchRequest` -/

/-- The `request` zod schema: body and headers nullable, method an enum,
url a string (already checked by `z.string().url()`). -/
structure Request where
  body : Option (List (String × JSValue))
  headers : Option (List (String × String))
  method : Method
  url : String
deriving DecidableEq, Repr

/-- The wire body handed to fetch: either a string (form-encoded or JSON)
or a FormData payload with one field per appended key. -/
inductive WireBody where
  | str (s : String)
  | formData (fields : List (String × String))
deriving DecidableEq, Repr

/-- Return shape of `createFetchRequest`. -/
structure FetchReq where
  body : Option WireBody
  headers : List (String × String)
  method : Method
  url : String
deriving DecidableEq, Repr

/-- `new Headers(h || {})`: header names are normalized to lower case
(duplicate-name combining is not modelled; the library never sends
duplicate header names). -/
def normHeaders (h : Option (List (String × String))) : List (String × String) :=
  (h.getD []).map (fun p => (lowerStr p.1, p.2))

/-- `headers.get(name)`: case-insensitive name lookup, null when absent. -/
def headersGet (hs : List (String × String)) (name : String) : Option String :=
  jsLookup hs (lowerStr name)

/-- `Webhooks.createFetchRequest` (src/index.ts lines 146-208).  For
POST/PUT with a non-empty body the wire encoding follows the
content-type header via `_.includes`; for every other method the body is
merged into the URL query string and the body is null.  Returns none
where `new URL(request.url)` would throw. -/
def createFetchRequest (request : Request) : Option FetchReq :=
  match parseURL request.url with
  | none => none
  | some url =>
    let headers := normHeaders request.headers
    if request.method = .POST ∨ request.method = .PUT then
      match request.body with
      | some b =>
        if b.length ≠ 0 then
          let contentType := headersGet headers "content-type"
          if ctIncludes contentType "application/x-www-form-urlencoded" then
            some ⟨some (.str (qsNoPfx b)), headers, request.method, request.url⟩
          else if ctIncludes contentType "multipart/form-data" then
            some ⟨some (.formData (b.map (fun p => (p.1, p.2.plain)))), headers, request.method, request.url⟩
          else
            some ⟨some (.str (jsonStringify b)), headers, request.method, request.url⟩
        else
          some ⟨none, headers, request.method, request.url⟩
      | none => some ⟨none, headers, request.method, request.url⟩
    else
      let queryString :=
        qsWithPfx (jsSpread (strParams (fromEntries url.params)) (request.body.getD []))
      some ⟨none, headers, request.method,
        url.protocol ++ "//" ++ url.host ++ url.pathname ++ queryString⟩

/-! ### Validation (the zod schemas) -/

/-- One structured diagnostic of a ZodError (`err.errors` entries carry a
path and a message; only those two are modelled). -/
structure Issue where
  path : String
  message : String
deriving DecidableEq, Repr

/-- The HttpError raised on validation failure:
`new HttpError(400, 'Validation Error', { context: err.errors })`. -/
structure HttpErr where
  status : Nat
  message : String
  context : List Issue
deriving DecidableEq, Repr

/-- Consume exactly `n` decimal digits. -/
def digitsN : Nat → List Char → Option (List Char)
  | 0, l => some l
  | _ + 1, [] => none
  | n + 1, c :: rest => if c.isDigit then digitsN n rest else none

/-- Consume one expected character. -/
def expectCh (c : Char) : List Char → Option (List Char)
  | [] => none
  | x :: xs => if x = c then some xs else none

/-- Optional fractional seconds: `.` followed by at least one digit. -/
def fracPart (l : List Char) : List Char :=
  match l with
  | '.' :: rest =>
    let ds := rest.span Char.isDigit
    if ds.1.isEmpty then l else ds.2
  | _ => l

/-- Trailing timezone: `Z` or `±HH:MM` (what
`z.string().datetime({ offset: true })` accepts). -/
def offsetPart : List Char → Bool
  | ['Z'] => true
  | c :: rest =>
    (c = '+' || c = '-') &&
      (match digitsN 2 rest with
       | some (':' :: r2) => digitsN 2 r2 = some []
       | _ => false)
  | [] => false

/-- `z.string().datetime({ offset: true })`:
`YYYY-MM-DDTHH:MM:SS(.fff)?(Z|±HH:MM)`. -/
def isIsoDatetime (s : String) : Bool :=
  match (digitsN 4 s.data).bind (expectCh '-') |>.bind (digitsN 2) |>.bind (expectCh '-')
      |>.bind (digitsN 2) |>.bind (expectCh 'T') |>.bind (digitsN 2) |>.bind (expectCh ':')
      |>.bind (digitsN 2) |>.bind (expectCh ':') |>.bind (digitsN 2) with
  | some rest => offsetPart (fracPart rest)
  | none => false

/-- Raw `TriggerInput` as the caller may supply it (`z.input` side of the
`triggerInput` schema): absent optional fields are `none`. -/
structure RawTriggerInput where
  metadata : Option (List (String × JSValue))
  nspace : Option String
  requestBody : Option (List (String × JSValue))
  requestHeaders : Option (List (String × String))
  requestMethod : Option Method
  requestUrl : Option String
  retryLimit : Option Int
deriving DecidableEq, Repr

/-- Parsed `TriggerInput` (`z.infer` side): defaults applied, bounds
checked.  `nspace` models the source field `namespace` (a Lean keyword). -/
structure TriggerArgs where
  metadata : List (String × JSValue)
  nspace : String
  requestBody : Option (List (String × JSValue))
  requestHeaders : Option (List (String × String))
  requestMethod : Method
  requestUrl : String
  retryLimit : Nat
deriving DecidableEq, Repr

/-- `triggerInput.parseAsync`: namespace and requestUrl required,
requestUrl a valid URL, retryLimit within `[0, 10]` (default 3),
requestMethod defaulting to GET, metadata defaulting to `{}`. -/
def parseTriggerInput (raw : RawTriggerInput) : Except (List Issue) TriggerArgs :=
  let issues :=
    (match raw.nspace with
     | none => [⟨"namespace", "Required"⟩]
     | some _ => []) ++
    (match raw.requestUrl with
     | none => [⟨"requestUrl", "Required"⟩]
     | some u => if (parseURL u).isSome then [] else [⟨"requestUrl", "Invalid url"⟩]) ++
    (match raw.retryLimit with
     | none => []
     | some i =>
       (if i < 0 then [⟨"retryLimit", "Number must be greater than or equal to 0"⟩] else []) ++
       (if 10 < i then [⟨"retryLimit", "Number must be less than or equal to 10"⟩] else []))
  match raw.nspace, raw.requestUrl with
  | some ns, some u =>
    if issues.isEmpty then
      .ok ⟨raw.metadata.getD [], ns, raw.requestBody, raw.requestHeaders,
        raw.requestMethod.getD .GET, u, (raw.retryLimit.getD 3).toNat⟩
    else .error issues
  | _, _ => .error issues

/-- Raw `FetchLogsInput` (`z.input` side of `fetchLogsInput`).  The `id`
and `idPfx` fields model extra keys a caller may pass; the schema has no
such keys, so zod strips them during parsing. -/
structure RawFetchLogsInput where
  desc : Option Bool
  fromTs : Option String
  id : Option String
  idPfx : Option String
  limit : Option Int
  metadata : Option (List (String × String))
  nspace : Option String
  startKey : Option (List (String × String))
  status : Option LogStatus
  toTs : Option String
deriving DecidableEq, Repr

/-- Parsed `FetchLogsInput`: defaults applied (`desc=false`, `limit=100`,
`metadata={}`, `startKey=null`); no id selector exists in the schema. -/
structure FetchArgs where
  desc : Bool
  fromTs : Option String
  limit : Int
  metadata : List (String × String)
  nspace : String
  startKey : Option (List (String × String))
  status : Option LogStatus
  toTs : Option String
deriving DecidableEq, Repr

/-- `fetchLogsInput.parseAsync`: namespace required, from/to each
independently an optional ISO-8601 datetime, limit at least 1. -/
def parseFetchLogsInput (raw : RawFetchLogsInput) : Except (List Issue) FetchArgs :=
  let issues :=
    (match raw.fromTs with
     | none => []
     | some f => if isIsoDatetime f then [] else [⟨"from", "Invalid datetime"⟩]) ++
    (match raw.limit with
     | none => []
     | some i => if i < 1 then [⟨"limit", "Number must be greater than or equal to 1"⟩] else []) ++
    (match raw.nspace with
     | none => [⟨"namespace", "Required"⟩]
     | some _ => []) ++
    (match raw.toTs with
     | none => []
     | some t => if isIsoDatetime t then [] else [⟨"to", "Invalid datetime"⟩])
  match raw.nspace with
  | some ns =>
    if issues.isEmpty then
      .ok ⟨raw.desc.getD false, raw.fromTs, raw.limit.getD 100, raw.metadata.getD [],
        ns, raw.startKey, raw.status, raw.toTs⟩
    else .error issues
  | none => .error issues

/-! ### QueryCompiler: `fetchLogs` -/

/-- The query plan handed to `this.db.logs.query` (the
`Dynamodb.QueryOptions` fields the code sets). -/
structure QueryPlan where
  attributeNames : List (String × String)
  attributeValues : List (String × String)
  filterExpression : String
  index : Option String
  limit : Int
  queryExpression : String
  scanIndexForward : Bool
  startKey : Option (List (String × String))
deriving DecidableEq, Repr

/-- Modelled from the spec: the use-dynamodb `concatConditionExpression`
helper (not part of this repository) AND-joins two condition expressions,
dropping empty operands. -/
def concatConditionExpression (a b : String) : String :=
  if a = "" then b else if b = "" then a else a ++ " AND " ++ b

/-- Rendering of a `LogStatus` as the string stored in the value map. -/
def statusStr : LogStatus → String
  | .FAIL => "FAIL"
  | .SUCCESS => "SUCCESS"

/-- The query plan `Webhooks.fetchLogs` compiles from parsed args
(src/index.ts lines 213-276): base key condition on `#namespace`; when
both `from` and `to` are present the `BETWEEN` range joins the key
condition; metadata equality predicates and then the status predicate
join the filter expression, each key generating `#key`/`:key`
placeholders by direct string prefixing. -/
def fetchLogsPlan (args : FetchArgs) : QueryPlan :=
  let q0 : QueryPlan :=
    { attributeNames := [("#namespace", "namespace")]
      attributeValues := [(":namespace", args.nspace)]
      filterExpression := ""
      index := some "namespace-createdAt"
      limit := args.limit
      queryExpression := "#namespace = :namespace"
      scanIndexForward := if args.desc then false else true
      startKey := args.startKey }
  let q1 :=
    match args.fromTs, args.toTs with
    | some f, some t =>
      { q0 with
        attributeNames := jsInsert q0.attributeNames "#__createdAt" "__createdAt"
        attributeValues := jsInsert (jsInsert q0.attributeValues ":from" f) ":to" t
        queryExpression :=
          concatConditionExpression q0.queryExpression "#__createdAt BETWEEN :from AND :to" }
    | _, _ => q0
  let q2 :=
    if args.metadata.length ≠ 0 then
      let start : List (String × String) × List (String × String) × List String :=
        (jsInsert q1.attributeNames "#metadata" "metadata", q1.attributeValues, [])
      let step := args.metadata.foldl
        (fun acc kv =>
          (jsInsert acc.1 ("#" ++ kv.1) kv.1,
           jsInsert acc.2.1 (":" ++ kv.1) kv.2,
           acc.2.2 ++ ["#metadata.#" ++ kv.1 ++ " = :" ++ kv.1]))
        start
      { q1 with
        attributeNames := step.1
        attributeValues := step.2.1
        filterExpression :=
          concatConditionExpression q1.filterExpression (String.intercalate " AND " step.2.2) }
    else q1
  match args.status with
  | some st =>
    { q2 with
      attributeNames := jsInsert q2.attributeNames "#status" "status"
      attributeValues := jsInsert q2.attributeValues ":status" (statusStr st)
      filterExpression := concatConditionExpression q2.filterExpression "#status = :status" }
  | none => q2

/-- `fetchLogs` up to the external store call: validation followed by
query compilation. -/
def fetchLogsCompile (raw : RawFetchLogsInput) : Except (List Issue) QueryPlan :=
  (parseFetchLogsInput raw).map fetchLogsPlan

/-! ### DeliveryEngine: `trigger` -/

/-- The transport's view of one response: what the code reads off the
fetch Response (`text()`, headers, ok, status). -/
structure Response where
  body : String
  headers : List (String × String)
  ok : Bool
  status : Int
deriving DecidableEq, Repr

/-- One fetch outcome: a protocol response, or a thrown transport error
(DNS failure, connection reset, timeout), carrying its message. -/
inductive TransportResult where
  | resp (r : Response)
  | exn (e : String)
deriving DecidableEq, Repr

/-- A fully shaped Log record (`log` schema): every persisted field. -/
structure Log where
  __createdAt : String
  __updatedAt : String
  id : String
  metadata : List (String × JSValue)
  nspace : String
  requestBody : Option (List (String × JSValue))
  requestHeaders : Option (List (String × String))
  requestMethod : Method
  requestUrl : String
  responseBody : String
  responseHeaders : List (String × String)
  responseOk : Bool
  responseStatus : Int
  retryCount : Nat
  retryLimit : Nat
  status : LogStatus
  ttl : Int
deriving DecidableEq, Repr

/-- Ambient effects of a trigger call: the id generator (one fresh id per
attempt index), the clock, and the configured TTL. -/
structure Env where
  uuid : Nat → String
  nowIso : String
  nowSec : Int
  ttlInSeconds : Int

/-- `args.retryLimit || 3`: JS `||` treats 0 as absent, so a retryLimit
of 0 is replaced by the default 3. -/
def effLimit (args : TriggerArgs) : Nat :=
  if args.retryLimit = 0 then 3 else args.retryLimit

/-- `JSON.stringify(HttpError.wrap(err).toJson())` for a plain Error with
the given message (stack suppressed, as the tests configure). -/
def errJson (e : String) : String :=
  "\x7b\"context\":null,\"message\":\"" ++ jsonEsc e ++ "\",\"stack\":[],\"status\":500\x7d"

/-- The log record `trigger` writes on a delivered attempt
(src/index.ts lines 318-334): the response is recorded verbatim, status
derives from `response.ok`, `retryCount` is the attempt index and
`retryLimit` the effective limit. -/
def mkAttemptLog (env : Env) (args : TriggerArgs) (f : FetchReq) (retries : Nat)
    (r : Response) : Log :=
  { __createdAt := env.nowIso
    __updatedAt := env.nowIso
    id := env.uuid retries
    metadata := args.metadata
    nspace := args.nspace
    requestBody := args.requestBody
    requestHeaders := args.requestHeaders
    requestMethod := f.method
    requestUrl := f.url
    responseBody := r.body
    responseHeaders := r.headers
    responseOk := r.ok
    responseStatus := r.status
    retryCount := retries
    retryLimit := effLimit args
    status := if r.ok then .SUCCESS else .FAIL
    ttl := env.nowSec + env.ttlInSeconds }

/-- The log record written in the catch branch (src/index.ts lines
350-365): synthetic status 500, `ok=false`, serialized error body, FAIL
status, `retryCount` pinned to 0, metadata defaulted to `{}` by the log
schema. -/
def mkExnLog (env : Env) (args : TriggerArgs) (n : Nat) (e : String) : Log :=
  { __createdAt := env.nowIso
    __updatedAt := env.nowIso
    id := env.uuid n
    metadata := []
    nspace := args.nspace
    requestBody := args.requestBody
    requestHeaders := args.requestHeaders
    requestMethod := args.requestMethod
    requestUrl := args.requestUrl
    responseBody := errJson e
    responseHeaders := []
    responseOk := false
    responseStatus := 500
    retryCount := 0
    retryLimit := effLimit args
    status := .FAIL
    ttl := env.nowSec + env.ttlInSeconds }

/-- Everything observable about one trigger call: the records written in
order, the number of transport invocations, and the returned record. -/
structure TriggerTrace where
  writes : List Log
  fetches : Nat
  result : Log
deriving Repr

/-- The post-validation body of `Webhooks.trigger` (src/index.ts lines
296-366), recursing exactly as `return this.trigger(args, retries)`
does: after a non-ok response, retry while `retries + 1 ≤ retryLimit || 3`;
a thrown transport error is converted by the catch branch into a single
FAIL record that is returned at once. -/
def triggerFrom (t : Nat → TransportResult) (env : Env) (args : TriggerArgs)
    (retries : Nat) : TriggerTrace :=
  match createFetchRequest ⟨args.requestBody, args.requestHeaders, args.requestMethod, args.requestUrl⟩ with
  | none =>
    let l := mkExnLog env args retries "Invalid URL"
    ⟨[l], 0, l⟩
  | some f =>
    match t retries with
    | .exn e =>
      let l := mkExnLog env args retries e
      ⟨[l], 1, l⟩
    | .resp r =>
      let res := mkAttemptLog env args f retries r
      if h : r.ok = false ∧ retries + 1 ≤ effLimit args then
        let rest := triggerFrom t env args (retries + 1)
        ⟨res :: rest.writes, rest.fetches + 1, rest.result⟩
      else
        ⟨[res], 1, res⟩
termination_by effLimit args - retries
decreasing_by
  obtain ⟨_, h2⟩ := h
  omega

/-- `Webhooks.trigger` from the raw input: validation first — a ZodError
becomes `HttpError(400, 'Validation Error', { context: err.errors })`
with no record written and no transport call — then the delivery loop
starting at `retries = 0`. -/
def trigger (t : Nat → TransportResult) (env : Env) (raw : RawTriggerInput) :
    Except HttpErr Log × List Log × Nat :=
  match parseTriggerInput raw with
  | .error issues => (.error ⟨400, "Validation Error", issues⟩, [], 0)
  | .ok args =>
    let tr := triggerFrom t env args 0
    (.ok tr.result, tr.writes, tr.fetches)

/-- Shorthand for the request `trigger` hands to `createFetchRequest`. -/
def reqOf (args : TriggerArgs) : Request :=
  ⟨args.requestBody, args.requestHeaders, args.requestMethod, args.requestUrl⟩

/-! ### Concrete instances used to exercise the definitions -/

/-- A fixed ambient environment: sequential ids, a fixed clock. -/
def env0 : Env :=
  ⟨fun n => "id" ++ toString n, "2024-01-01T00:00:00Z", 1700000000, 7776000⟩

/-- A 404 response, as the test double returns. -/
def fail404 : Response :=
  ⟨"\x7b\"error\":\"Not Found\"\x7d", [("content-type", "application/json")], false, 404⟩

/-- A transport that always answers with the non-ok 404 response. -/
def tFail : Nat → TransportResult := fun _ => .resp fail404

/-- A transport that always throws (network-level failure). -/
def tThrow : Nat → TransportResult := fun _ => .exn "FAIL to fetch"

/-- Parsed trigger args for a GET to a fixed URL with the given retryLimit. -/
def argsRL (n : Nat) : TriggerArgs :=
  ⟨[], "spec", none, none, .GET, "https://h/p", n⟩

/-- A raw trigger input that omits `requestUrl`. -/
def rawMissingUrl : RawTriggerInput :=
  ⟨none, some "spec", none, none, none, none, none⟩

/-- A well-formed raw trigger input (retryLimit 2). -/
def rawGood : RawTriggerInput :=
  ⟨none, some "spec", none, none, none, some "https://h/p", some 2⟩

/-- A raw fetchLogs input that passes an id and an idPrefix selector
(keys not in the schema). -/
def rawWithIdPfx : RawFetchLogsInput :=
  ⟨none, none, some "abc", some "ab", none, none, some "n", none, none, none⟩

/-- The parsed args rawWithIdPfx yields: all defaults, namespace "n". -/
def argsPlain : FetchArgs :=
  ⟨false, none, 100, [], "n", none, none, none⟩

/-- Parsed fetchLogs args with a metadata key named `namespace`. -/
def argsMetaNs : FetchArgs :=
  ⟨false, none, 100, [("namespace", "m")], "n", none, none, none⟩

/-- A raw fetchLogs input carrying id/idPrefix selectors alongside a
status filter and a metadata constraint. -/
def rawIdStatusMd : RawFetchLogsInput :=
  ⟨none, none, some "abc", some "ab", none, some [("tenant", "t1")], some "n", none,
    some .FAIL, none⟩

/-- The parsed args rawIdStatusMd yields. -/
def argsIdStatusMd : FetchArgs :=
  ⟨false, none, 100, [("tenant", "t1")], "n", none, some .FAIL, none⟩

/-- A raw fetchLogs input supplying `from` but not `to`. -/
def rawFromOnly : RawFetchLogsInput :=
  ⟨none, some "2024-01-01T00:00:00Z", none, none, none, none, some "n", none, none, none⟩

/-- Parsed fetchLogs args with only `from` set. -/
def argsFromOnly : FetchArgs :=
  ⟨false, some "2024-01-01T00:00:00Z", 100, [], "n", none, none, none⟩

/-- The attribute stems for which fetchLogs itself generates placeholders;
a metadata key equal to one of these collides with the built-in
`#name`/`:value` tokens. -/
def reservedStems : List String :=
  ["namespace", "__createdAt", "metadata", "status", "from", "to"]

/-! ### Lemmas about the JS object operations -/

theorem jsInsert_fresh (m : List (String × α)) (k : String) (v : α)
    (h : m.any (fun p => p.1 == k) = false) : jsInsert m k v = m ++ [(k, v)] := by
  simp [jsInsert, h]

theorem jsLookup_jsInsert (m : List (String × α)) (k : String) (v : α) (k' : String) :
    jsLookup (jsInsert m k v) k' = if k' = k then some v else jsLookup m k' := by
  by_cases h : m.any (fun p => p.1 == k)
  · simp only [jsInsert, h, if_true, jsLookup, List.find?_map]
    by_cases hk : k' = k
    · subst hk
      have hpred : ((fun q : String × α => q.1 == k') ∘ fun p : String × α =>
          if p.1 == k' then (k', v) else p) = fun p : String × α => p.1 == k' := by
        funext p
        by_cases hp : p.1 = k' <;> simp [hp]
      rw [hpred]
      obtain ⟨p0, hp0, hp0k⟩ := List.any_eq_true.mp h
      have hs : (m.find? (fun p : String × α => p.1 == k')).isSome :=
        List.find?_isSome.mpr ⟨p0, hp0, hp0k⟩
      obtain ⟨q, hq⟩ := Option.isSome_iff_exists.mp hs
      have hqk := List.find?_some hq
      simp only [beq_iff_eq] at hqk
      simp [hq, hqk]
    · have hpred : ((fun q : String × α => q.1 == k') ∘ fun p : String × α =>
          if p.1 == k then (k, v) else p) = fun p : String × α => p.1 == k' := by
        funext p
        by_cases hp : p.1 = k
        · simp [hp, Ne.symm hk, fun hkk' : k = k' => hk (hkk'.symm)]
        · simp [hp]
      rw [hpred]
      cases hf : m.find? (fun p : String × α => p.1 == k') with
      | none => simp [hf, hk]
      | some q =>
        have hqk := List.find?_some hf
        simp only [beq_iff_eq] at hqk
        simp [hf, hk, hqk]
  · rw [jsInsert_fresh m k v (Bool.eq_false_iff.mpr h)]
    simp only [jsLookup, List.find?_append]
    have hnone : m.find? (fun p : String × α => p.1 == k) = none := by
      rw [List.find?_eq_none]
      intro p hp hpk
      exact h (List.any_eq_true.mpr ⟨p, hp, hpk⟩)
    by_cases hk : k' = k
    · subst hk
      simp [hnone, List.find?_cons]
    · cases hf : m.find? (fun p : String × α => p.1 == k') with
      | none => simp [hf, hk, Ne.symm hk, List.find?_cons]
      | some q => simp [hf, hk, Ne.symm hk, List.find?_cons]

theorem jsLookup_eq_none (m : List (String × α)) (k : String)
    (h : k ∉ m.map Prod.fst) : jsLookup m k = none := by
  simp only [jsLookup, Option.map_eq_none', List.find?_eq_none]
  intro p hp hpk
  simp only [beq_iff_eq] at hpk
  exact h (hpk ▸ List.mem_map.mpr ⟨p, hp, rfl⟩)

theorem jsLookup_cons (p : String × α) (m : List (String × α)) (k : String) :
    jsLookup (p :: m) k = if p.1 = k then some p.2 else jsLookup m k := by
  by_cases hp : p.1 = k <;> simp [jsLookup, List.find?_cons, hp]

theorem jsLookup_jsSpread (m b : List (String × α)) (k : String)
    (hb : (b.map Prod.fst).Nodup) :
    jsLookup (jsSpread m b) k =
      if (jsLookup b k).isSome then jsLookup b k else jsLookup m k := by
  induction b generalizing m with
  | nil => simp [jsSpread, jsLookup]
  | cons p bs ih =>
    obtain ⟨k0, v0⟩ := p
    simp only [List.map_cons, List.nodup_cons] at hb
    have hstep : jsSpread m ((k0, v0) :: bs) = jsSpread (jsInsert m k0 v0) bs := by
      simp [jsSpread]
    rw [hstep, ih (jsInsert m k0 v0) hb.2, jsLookup_cons, jsLookup_jsInsert]
    by_cases hk : k = k0
    · subst hk
      have hnone : jsLookup bs k = none :=
        jsLookup_eq_none bs k hb.1
      simp [hnone]
    · simp [hk, Ne.symm hk]

theorem foldl_jsInsert_fresh {β : Type} (f : β → String) (g : β → α) (l : List β)
    (acc : List (String × α))
    (h1 : ∀ b ∈ l, ∀ p ∈ acc, p.1 ≠ f b) (h2 : (l.map f).Nodup) :
    l.foldl (fun m b => jsInsert m (f b) (g b)) acc = acc ++ l.map (fun b => (f b, g b)) := by
  induction l generalizing acc with
  | nil => simp
  | cons b bs ih =>
    simp only [List.map_cons, List.nodup_cons] at h2
    have hfresh : acc.any (fun p => p.1 == f b) = false := by
      rw [Bool.eq_false_iff]
      intro hany
      obtain ⟨p, hp, hpk⟩ := List.any_eq_true.mp hany
      simp only [beq_iff_eq] at hpk
      exact h1 b (List.mem_cons_self b bs) p hp hpk
    rw [List.foldl_cons, jsInsert_fresh acc (f b) (g b) hfresh,
      ih (acc ++ [(f b, g b)]) ?fresh h2.2, List.append_assoc]
    simp
    case fresh =>
      intro b' hb' p hp
      rcases List.mem_append.mp hp with hpa | hps
      · exact h1 b' (List.mem_cons_of_mem b hb') p hpa
      · simp only [List.mem_singleton] at hps
        subst hps
        intro hcontra
        have hfb : f b = f b' := hcontra
        exact h2.1 (by rw [hfb]; exact List.mem_map.mpr ⟨b', hb', rfl⟩)

theorem fromEntries_nodup (l : List (String × String)) (h : (l.map Prod.fst).Nodup) :
    fromEntries l = l := by
  have := foldl_jsInsert_fresh Prod.fst Prod.snd l []
    (by intro b hb p hp; simp at hp) (by simpa using h)
  simpa [fromEntries] using this

theorem str_append_inj (p a b : String) (h : p ++ a = p ++ b) : a = b := by
  apply String.ext
  have h2 := congrArg String.data h
  simp only [String.data_append] at h2
  exact List.append_cancel_left h2

/-- Looking a key up after a fold of jsInserts: the last insert of that
key wins, otherwise the accumulator answers. -/
theorem jsLookup_foldl_jsInsert {β : Type} (f : β → String) (g : β → α)
    (l : List β) (acc : List (String × α)) (k : String) :
    jsLookup (l.foldl (fun m b => jsInsert m (f b) (g b)) acc) k =
      (match l.reverse.find? (fun b => f b == k) with
       | some b => some (g b)
       | none => jsLookup acc k) := by
  induction l generalizing acc with
  | nil => simp
  | cons b bs ih =>
    simp only [List.foldl_cons, List.reverse_cons, List.find?_append]
    rw [ih]
    cases hbs : bs.reverse.find? (fun b => f b == k) with
    | some b' => simp
    | none =>
      simp only [Option.none_or, List.find?_cons]
      cases hfb : (f b == k) with
      | true =>
        have heq : k = f b := (beq_iff_eq.mp hfb).symm
        simp [jsLookup_jsInsert, if_pos heq]
      | false =>
        have hne : ¬(k = f b) := fun h => by simp [h.symm] at hfb
        simp [jsLookup_jsInsert, if_neg hne]

/-- With pairwise distinct keys, the reverse-find of a present key is
that element. -/
theorem find?_rev_nodup {β : Type} (f : β → String) (l : List β) (b0 : β)
    (hmem : b0 ∈ l) (hnd : (l.map f).Nodup) :
    l.reverse.find? (fun b => f b == f b0) = some b0 := by
  induction l with
  | nil => cases hmem
  | cons b bs ih =>
    simp only [List.map_cons, List.nodup_cons] at hnd
    simp only [List.reverse_cons, List.find?_append]
    rcases List.mem_cons.mp hmem with hb0 | hmem'
    · subst hb0
      have hnone : bs.reverse.find? (fun x => f x == f b0) = none := by
        rw [List.find?_eq_none]
        intro x hx hcontra
        simp only [beq_iff_eq] at hcontra
        exact hnd.1 (hcontra ▸ List.mem_map.mpr ⟨x, List.mem_reverse.mp hx, rfl⟩)
      simp [hnone, List.find?_cons]
    · rw [ih hmem' hnd.2]
      simp

/-- Reverse-find of an absent key is none. -/
theorem find?_rev_absent {β : Type} (f : β → String) (l : List β) (k : String)
    (h : ∀ b ∈ l, f b ≠ k) :
    l.reverse.find? (fun b => f b == k) = none := by
  rw [List.find?_eq_none]
  intro b hb hcontra
  simp only [beq_iff_eq] at hcontra
  exact h b (List.mem_reverse.mp hb) hcontra

theorem pfx_ne_of_stem_ne (pfx k stem : String) (hk : k ≠ stem) :
    pfx ++ k ≠ pfx ++ stem :=
  fun h => hk (str_append_inj pfx _ _ h)

/-- First projection of the metadata fold in fetchLogsPlan: the names
map evolves by jsInserts of `#key` alone. -/
theorem mdFold_fst (md : List (String × String)) (a b : List (String × String))
    (c : List String) :
    (md.foldl (fun acc kv =>
        (jsInsert acc.1 ("#" ++ kv.1) kv.1,
         jsInsert acc.2.1 (":" ++ kv.1) kv.2,
         acc.2.2 ++ ["#metadata.#" ++ kv.1 ++ " = :" ++ kv.1])) (a, b, c)).1 =
      md.foldl (fun m kv => jsInsert m ("#" ++ kv.1) kv.1) a := by
  induction md generalizing a b c with
  | nil => rfl
  | cons kv mds ih =>
    simp only [List.foldl_cons]
    exact ih _ _ _

/-- Second projection of the metadata fold in fetchLogsPlan: the values
map evolves by jsInserts of `:key` alone. -/
theorem mdFold_snd (md : List (String × String)) (a b : List (String × String))
    (c : List String) :
    (md.foldl (fun acc kv =>
        (jsInsert acc.1 ("#" ++ kv.1) kv.1,
         jsInsert acc.2.1 (":" ++ kv.1) kv.2,
         acc.2.2 ++ ["#metadata.#" ++ kv.1 ++ " = :" ++ kv.1])) (a, b, c)).2.1 =
      md.foldl (fun m kv => jsInsert m (":" ++ kv.1) kv.2) b := by
  induction md generalizing a b c with
  | nil => rfl
  | cons kv mds ih =>
    simp only [List.foldl_cons]
    exact ih _ _ _

/-- Third projection of the metadata fold in fetchLogsPlan: the filter
fragments accumulate one `#metadata.#key = :key` predicate per key, in
order. -/
theorem mdFold_thd (md : List (String × String)) (a b : List (String × String))
    (c : List String) :
    (md.foldl (fun acc kv =>
        (jsInsert acc.1 ("#" ++ kv.1) kv.1,
         jsInsert acc.2.1 (":" ++ kv.1) kv.2,
         acc.2.2 ++ ["#metadata.#" ++ kv.1 ++ " = :" ++ kv.1])) (a, b, c)).2.2 =
      c ++ md.map (fun kv => "#metadata.#" ++ kv.1 ++ " = :" ++ kv.1) := by
  induction md generalizing a b c with
  | nil => simp
  | cons kv mds ih =>
    simp only [List.foldl_cons, List.map_cons]
    rw [ih]
    simp

/-! ### Lemmas about the trigger loop -/

/-- One-step unfolding: URL construction throws (never after successful
validation, kept for totality). -/
theorem triggerFrom_none_step (t : Nat → TransportResult) (env : Env)
    (args : TriggerArgs) (retries : Nat)
    (hcf : createFetchRequest (reqOf args) = none) :
    triggerFrom t env args retries =
      ⟨[mkExnLog env args retries "Invalid URL"], 0, mkExnLog env args retries "Invalid URL"⟩ := by
  rw [triggerFrom.eq_def]
  rw [show createFetchRequest
    ⟨args.requestBody, args.requestHeaders, args.requestMethod, args.requestUrl⟩ = none from hcf]

/-- One-step unfolding: the transport throws, the catch branch returns a
single FAIL record. -/
theorem triggerFrom_exn_step (t : Nat → TransportResult) (env : Env)
    (args : TriggerArgs) (retries : Nat) (f : FetchReq) (e : String)
    (hcf : createFetchRequest (reqOf args) = some f) (ht : t retries = .exn e) :
    triggerFrom t env args retries =
      ⟨[mkExnLog env args retries e], 1, mkExnLog env args retries e⟩ := by
  rw [triggerFrom.eq_def]
  rw [show createFetchRequest
    ⟨args.requestBody, args.requestHeaders, args.requestMethod, args.requestUrl⟩ = some f from hcf]
  rw [ht]

/-- One-step unfolding: non-ok response with remaining budget, the loop
records the attempt and recurses. -/
theorem triggerFrom_retry_step (t : Nat → TransportResult) (env : Env)
    (args : TriggerArgs) (retries : Nat) (f : FetchReq) (r : Response)
    (hcf : createFetchRequest (reqOf args) = some f) (ht : t retries = .resp r)
    (h : r.ok = false ∧ retries + 1 ≤ effLimit args) :
    triggerFrom t env args retries =
      ⟨mkAttemptLog env args f retries r :: (triggerFrom t env args (retries + 1)).writes,
        (triggerFrom t env args (retries + 1)).fetches + 1,
        (triggerFrom t env args (retries + 1)).result⟩ := by
  rw [triggerFrom.eq_def]
  rw [show createFetchRequest
    ⟨args.requestBody, args.requestHeaders, args.requestMethod, args.requestUrl⟩ = some f from hcf]
  rw [ht]
  simp only [dif_pos h]

/-- One-step unfolding: delivery ends (ok response or exhausted budget),
the just-written record is returned. -/
theorem triggerFrom_done_step (t : Nat → TransportResult) (env : Env)
    (args : TriggerArgs) (retries : Nat) (f : FetchReq) (r : Response)
    (hcf : createFetchRequest (reqOf args) = some f) (ht : t retries = .resp r)
    (h : ¬(r.ok = false ∧ retries + 1 ≤ effLimit args)) :
    triggerFrom t env args retries =
      ⟨[mkAttemptLog env args f retries r], 1, mkAttemptLog env args f retries r⟩ := by
  rw [triggerFrom.eq_def]
  rw [show createFetchRequest
    ⟨args.requestBody, args.requestHeaders, args.requestMethod, args.requestUrl⟩ = some f from hcf]
  rw [ht]
  simp only [dif_neg h]

theorem triggerFrom_writes_ne_nil (t : Nat → TransportResult) (env : Env)
    (args : TriggerArgs) (retries : Nat) :
    (triggerFrom t env args retries).writes ≠ [] := by
  refine triggerFrom.induct t env args
    (fun x => (triggerFrom t env args x).writes ≠ []) ?_ ?_ ?_ ?_ retries
  · intro x hcf
    rw [triggerFrom_none_step t env args x hcf]
    simp
  · intro x f hcf e ht
    rw [triggerFrom_exn_step t env args x f e hcf ht]
    simp
  · intro x f hcf r ht h ih
    rw [triggerFrom_retry_step t env args x f r hcf ht h]
    simp
  · intro x f hcf r ht h
    rw [triggerFrom_done_step t env args x f r hcf ht h]
    simp

theorem triggerFrom_getLast (t : Nat → TransportResult) (env : Env)
    (args : TriggerArgs) (retries : Nat) :
    (triggerFrom t env args retries).writes.getLast? =
      some (triggerFrom t env args retries).result := by
  refine triggerFrom.induct t env args
    (fun x => (triggerFrom t env args x).writes.getLast? =
      some (triggerFrom t env args x).result) ?_ ?_ ?_ ?_ retries
  · intro x hcf
    rw [triggerFrom_none_step t env args x hcf]
    simp
  · intro x f hcf e ht
    rw [triggerFrom_exn_step t env args x f e hcf ht]
    simp
  · intro x f hcf r ht h ih
    rw [triggerFrom_retry_step t env args x f r hcf ht h]
    have hne := triggerFrom_writes_ne_nil t env args (x + 1)
    obtain ⟨w, ws, hws⟩ : ∃ w ws, (triggerFrom t env args (x + 1)).writes = w :: ws :=
      List.exists_cons_of_ne_nil hne
    rw [hws] at ih ⊢
    simpa [List.getLast?_cons_cons] using ih
  · intro x f hcf r ht h
    rw [triggerFrom_done_step t env args x f r hcf ht h]
    simp

theorem triggerFrom_result_mem (t : Nat → TransportResult) (env : Env)
    (args : TriggerArgs) (retries : Nat) :
    (triggerFrom t env args retries).result ∈ (triggerFrom t env args retries).writes :=
  List.mem_of_mem_getLast? (triggerFrom_getLast t env args retries)

/-- Core record invariants along the loop: every written record carries
the effective retry limit, a retry count within it, and a status that
mirrors `responseOk`. -/
theorem triggerFrom_inv (t : Nat → TransportResult) (env : Env)
    (args : TriggerArgs) (retries : Nat) :
    retries ≤ effLimit args →
    ∀ l ∈ (triggerFrom t env args retries).writes,
      l.retryLimit = effLimit args ∧ l.retryCount ≤ effLimit args ∧
        (l.status = .SUCCESS ↔ l.responseOk = true) := by
  refine triggerFrom.induct t env args
    (fun x => x ≤ effLimit args →
      ∀ l ∈ (triggerFrom t env args x).writes,
        l.retryLimit = effLimit args ∧ l.retryCount ≤ effLimit args ∧
          (l.status = .SUCCESS ↔ l.responseOk = true)) ?_ ?_ ?_ ?_ retries
  · intro x hcf _ l hl
    rw [triggerFrom_none_step t env args x hcf] at hl
    simp only [List.mem_singleton] at hl
    subst hl
    simp [mkExnLog]
  · intro x f hcf e ht _ l hl
    rw [triggerFrom_exn_step t env args x f e hcf ht] at hl
    simp only [List.mem_singleton] at hl
    subst hl
    simp [mkExnLog]
  · intro x f hcf r ht h ih _ l hl
    rw [triggerFrom_retry_step t env args x f r hcf ht h] at hl
    simp only [List.mem_cons] at hl
    rcases hl with hl | hl
    · subst hl
      refine ⟨rfl, le_trans (Nat.le_succ x) h.2, ?_⟩
      simp [mkAttemptLog, h.1]
    · exact ih h.2 l hl
  · intro x f hcf r ht h hr l hl
    rw [triggerFrom_done_step t env args x f r hcf ht h] at hl
    simp only [List.mem_singleton] at hl
    subst hl
    refine ⟨rfl, hr, ?_⟩
    by_cases hok : r.ok <;> simp [mkAttemptLog, hok]

/-- Attempt counting under a transport that always returns a non-ok
response: the loop runs the full remaining budget. -/
theorem triggerFrom_allFail (t : Nat → TransportResult) (env : Env)
    (args : TriggerArgs)
    (hf : (createFetchRequest (reqOf args)).isSome)
    (ht : ∀ n, ∃ r, t n = .resp r ∧ r.ok = false) (retries : Nat) :
    retries ≤ effLimit args →
    (triggerFrom t env args retries).writes.length = effLimit args + 1 - retries ∧
      (triggerFrom t env args retries).fetches = effLimit args + 1 - retries ∧
      (triggerFrom t env args retries).result.retryCount = effLimit args ∧
      (triggerFrom t env args retries).result.status = .FAIL := by
  refine triggerFrom.induct t env args
    (fun x => x ≤ effLimit args →
      (triggerFrom t env args x).writes.length = effLimit args + 1 - x ∧
        (triggerFrom t env args x).fetches = effLimit args + 1 - x ∧
        (triggerFrom t env args x).result.retryCount = effLimit args ∧
        (triggerFrom t env args x).result.status = .FAIL) ?_ ?_ ?_ ?_ retries
  · intro x hcf _
    have hf' : (createFetchRequest
      ⟨args.requestBody, args.requestHeaders, args.requestMethod, args.requestUrl⟩).isSome = true := hf
    rw [hcf] at hf'
    simp at hf' 
  · intro x f hcf e hte _
    obtain ⟨r, htr, _⟩ := ht x
    rw [hte] at htr
    cases htr
  · intro x f hcf r htr h ih _
    obtain ⟨hok, hle⟩ := h
    have hrec := ih hle
    rw [triggerFrom_retry_step t env args x f r hcf htr ⟨hok, hle⟩]
    refine ⟨?_, ?_, hrec.2.2.1, hrec.2.2.2⟩
    · simp only [List.length_cons, hrec.1]
      omega
    · show (triggerFrom t env args (x + 1)).fetches + 1 = effLimit args + 1 - x
      rw [hrec.2.1]
      omega
  · intro x f hcf r htr h hr
    obtain ⟨r', htr', hok'⟩ := ht x
    rw [htr] at htr'
    cases htr'
    have hnot : ¬(x + 1 ≤ effLimit args) := fun hle => h ⟨hok', hle⟩
    have hx : x = effLimit args := by omega
    rw [triggerFrom_done_step t env args x f r hcf htr h]
    refine ⟨?_, ?_, ?_, ?_⟩
    · simp only [List.length_singleton]
      omega
    · show 1 = effLimit args + 1 - x
      omega
    · show x = effLimit args
      exact hx
    · simp [mkAttemptLog, hok']

/-! ### Claim theorems -/

/-- C1 (counterexample): for `retryLimit = 0` and an always-failing
transport, `trigger` performs 4 attempts and returns `retryCount = 3` —
not the claimed 1 attempt with `retryCount = 0` — because
`args.retryLimit || 3` treats 0 as absent. -/
theorem c1_counterexample :
    (triggerFrom tFail env0 (argsRL 0) 0).writes.length = 4 ∧
      (triggerFrom tFail env0 (argsRL 0) 0).result.retryCount = 3 ∧
      ¬((triggerFrom tFail env0 (argsRL 0) 0).writes.length = 0 + 1 ∧
        (triggerFrom tFail env0 (argsRL 0) 0).result.retryCount = 0) := by
  have h := triggerFrom_allFail tFail env0 (argsRL 0) (by decide)
    (fun n => ⟨fail404, rfl, rfl⟩) 0 (Nat.zero_le _)
  have heff : effLimit (argsRL 0) = 3 := by decide
  rw [heff] at h
  have h1 : (triggerFrom tFail env0 (argsRL 0) 0).writes.length = 4 := by simpa using h.1
  have h2 : (triggerFrom tFail env0 (argsRL 0) 0).result.retryCount = 3 := h.2.2.1
  refine ⟨h1, h2, ?_⟩
  intro hcl
  rw [h2] at hcl
  simp at hcl

/-- C1 (amended): with `N = retryLimit` in `[0,10]` and an always-failing
transport, `trigger` performs exactly `E + 1` attempts, writes exactly
`E + 1` records and returns the last one with `retryCount = E`, status
FAIL, where `E = N` for `N ≥ 1` but `E = 3` for `N = 0` (the `|| 3`
default swallows an explicit 0). -/
theorem c1_retry_bound_effective (t : Nat → TransportResult) (env : Env)
    (args : TriggerArgs) (_h10 : args.retryLimit ≤ 10)
    (hf : (createFetchRequest (reqOf args)).isSome)
    (ht : ∀ n, ∃ r, t n = .resp r ∧ r.ok = false) :
    (triggerFrom t env args 0).writes.length = effLimit args + 1 ∧
      (triggerFrom t env args 0).fetches = effLimit args + 1 ∧
      (triggerFrom t env args 0).result.retryCount = effLimit args ∧
      (triggerFrom t env args 0).result.status = .FAIL ∧
      (triggerFrom t env args 0).writes.getLast? = some (triggerFrom t env args 0).result ∧
      (args.retryLimit ≠ 0 → effLimit args = args.retryLimit) ∧
      (args.retryLimit = 0 → effLimit args = 3) := by
  have h := triggerFrom_allFail t env args hf ht 0 (Nat.zero_le _)
  refine ⟨by simpa using h.1, by simpa using h.2.1, h.2.2.1, h.2.2.2,
    triggerFrom_getLast t env args 0, ?_, ?_⟩
  · intro hne
    simp [effLimit, hne]
  · intro hz
    simp [effLimit, hz]

/-- C1 witness: retryLimit 2 and the always-404 transport give 3 records
and final retryCount 2. -/
theorem c1_retry_bound_effective_witness :
    (triggerFrom tFail env0 (argsRL 2) 0).writes.length = 3 ∧
      (triggerFrom tFail env0 (argsRL 2) 0).result.retryCount = 2 := by
  have h := c1_retry_bound_effective tFail env0 (argsRL 2) (by decide) (by decide)
    (fun n => ⟨fail404, rfl, rfl⟩)
  have heff : effLimit (argsRL 2) = 2 := by decide
  rw [heff] at h
  exact ⟨h.1, h.2.2.1⟩

/-- C2 (counterexample): a transport that always throws is not retried:
with retryLimit 2 it writes 1 record where the always-failing response
transport writes 3 — the two are distinguishable to the retry logic,
contradicting the claimed shared retry policy. -/
theorem c2_counterexample :
    (triggerFrom tThrow env0 (argsRL 2) 0).writes.length = 1 ∧
      (triggerFrom tFail env0 (argsRL 2) 0).writes.length = 3 ∧
      (1 : Nat) ≠ 3 := by
  refine ⟨?_, ?_, by decide⟩
  · rw [triggerFrom_exn_step tThrow env0 (argsRL 2) 0 ⟨none, [], .GET, "https://h/p"⟩
      "FAIL to fetch" (by decide) rfl]
    rfl
  · have h := triggerFrom_allFail tFail env0 (argsRL 2) (by decide)
      (fun n => ⟨fail404, rfl, rfl⟩) 0 (Nat.zero_le _)
    have heff : effLimit (argsRL 2) = 2 := by decide
    rw [heff] at h
    simpa using h.1

/-- C2 (amended): a transport exception is never propagated: it is
converted into a synthetic failed response (status 500, ok=false, body a
serialized error), a FAIL record is written and returned — but it is
returned immediately with `retryCount = 0`; exceptions are not retried,
unlike non-2xx protocol responses. -/
theorem c2_exception_handling (t : Nat → TransportResult) (env : Env)
    (args : TriggerArgs) (e : String) (f : FetchReq)
    (hcf : createFetchRequest (reqOf args) = some f) (ht : t 0 = .exn e) :
    triggerFrom t env args 0 = ⟨[mkExnLog env args 0 e], 1, mkExnLog env args 0 e⟩ ∧
      (mkExnLog env args 0 e).status = .FAIL ∧
      (mkExnLog env args 0 e).responseOk = false ∧
      (mkExnLog env args 0 e).responseStatus = 500 ∧
      (mkExnLog env args 0 e).responseBody = errJson e ∧
      (mkExnLog env args 0 e).retryCount = 0 ∧
      (triggerFrom t env args 0).writes.length = 1 := by
  have hstep := triggerFrom_exn_step t env args 0 f e hcf ht
  exact ⟨hstep, rfl, rfl, rfl, rfl, rfl, by simp [hstep]⟩

/-- C2 witness: the always-throwing transport at retryLimit 2. -/
theorem c2_exception_handling_witness :
    triggerFrom tThrow env0 (argsRL 2) 0 =
      ⟨[mkExnLog env0 (argsRL 2) 0 "FAIL to fetch"], 1,
        mkExnLog env0 (argsRL 2) 0 "FAIL to fetch"⟩ ∧
      (mkExnLog env0 (argsRL 2) 0 "FAIL to fetch").status = .FAIL := by
  have h := c2_exception_handling tThrow env0 (argsRL 2) "FAIL to fetch"
    ⟨none, [], .GET, "https://h/p"⟩ (by decide) rfl
  exact ⟨h.1, h.2.1⟩

/-- C3: every record written by `trigger` satisfies
`retryCount ≤ retryLimit`, for any input and any transport, and the
returned record is among the written ones. -/
theorem c3_retry_count_le_limit (t : Nat → TransportResult) (env : Env)
    (raw : RawTriggerInput) :
    (∀ l ∈ (trigger t env raw).2.1, l.retryCount ≤ l.retryLimit) ∧
      (∀ lg, (trigger t env raw).1 = .ok lg → lg ∈ (trigger t env raw).2.1) := by
  cases hp : parseTriggerInput raw with
  | error issues =>
    constructor
    · intro l hl
      simp [trigger, hp] at hl
    · intro lg hlg
      simp [trigger, hp] at hlg
  | ok args =>
    constructor
    · intro l hl
      simp only [trigger, hp] at hl
      have h := triggerFrom_inv t env args 0 (Nat.zero_le _) l hl
      rw [h.1]
      exact h.2.1
    · intro lg hlg
      simp only [trigger, hp, Except.ok.injEq] at hlg
      subst hlg
      simpa [trigger, hp] using triggerFrom_result_mem t env args 0

/-- C3 witness: instantiated at the always-404 transport and a concrete
valid raw input. -/
theorem c3_retry_count_le_limit_witness :
    (∀ l ∈ (trigger tFail env0 rawGood).2.1, l.retryCount ≤ l.retryLimit) ∧
      (∀ lg, (trigger tFail env0 rawGood).1 = .ok lg →
        lg ∈ (trigger tFail env0 rawGood).2.1) :=
  c3_retry_count_le_limit tFail env0 rawGood

/-- C4: every record written by `trigger` has status SUCCESS iff its
recorded responseOk is true (equivalently FAIL iff responseOk is false),
covering both the response path and the exception path. -/
theorem c4_status_iff_ok (t : Nat → TransportResult) (env : Env)
    (raw : RawTriggerInput) :
    ∀ l ∈ (trigger t env raw).2.1,
      (l.status = .SUCCESS ↔ l.responseOk = true) ∧
        (l.status = .FAIL ↔ l.responseOk = false) := by
  cases hp : parseTriggerInput raw with
  | error issues =>
    intro l hl
    simp [trigger, hp] at hl
  | ok args =>
    intro l hl
    simp only [trigger, hp] at hl
    have h := (triggerFrom_inv t env args 0 (Nat.zero_le _) l hl).2.2
    refine ⟨h, ?_⟩
    cases hs : l.status with
    | SUCCESS =>
      rw [hs] at h
      have hok := h.mp rfl
      simp [hok]
    | FAIL =>
      rw [hs] at h
      constructor
      · intro _
        cases hok : l.responseOk
        · rfl
        · exact absurd (h.mpr hok) (by simp)
      · intro _
        rfl

/-- C4 witness: the first record the always-404 transport writes for a
concrete valid input satisfies both equivalences. -/
theorem c4_status_iff_ok_witness :
    ((mkAttemptLog env0 ⟨[], "spec", none, none, .GET, "https://h/p", 2⟩
        ⟨none, [], .GET, "https://h/p"⟩ 0 fail404).status = .SUCCESS ↔
      (mkAttemptLog env0 ⟨[], "spec", none, none, .GET, "https://h/p", 2⟩
        ⟨none, [], .GET, "https://h/p"⟩ 0 fail404).responseOk = true) ∧
      ((mkAttemptLog env0 ⟨[], "spec", none, none, .GET, "https://h/p", 2⟩
        ⟨none, [], .GET, "https://h/p"⟩ 0 fail404).status = .FAIL ↔
      (mkAttemptLog env0 ⟨[], "spec", none, none, .GET, "https://h/p", 2⟩
        ⟨none, [], .GET, "https://h/p"⟩ 0 fail404).responseOk = false) := by
  have hp : parseTriggerInput rawGood = .ok ⟨[], "spec", none, none, .GET, "https://h/p", 2⟩ := by
    decide
  have hstep := triggerFrom_retry_step tFail env0
    ⟨[], "spec", none, none, .GET, "https://h/p", 2⟩ 0
    ⟨none, [], .GET, "https://h/p"⟩ fail404 (by decide) rfl ⟨rfl, by decide⟩
  have hmem : mkAttemptLog env0 ⟨[], "spec", none, none, .GET, "https://h/p", 2⟩
      ⟨none, [], .GET, "https://h/p"⟩ 0 fail404 ∈ (trigger tFail env0 rawGood).2.1 := by
    simp only [trigger, hp]
    rw [hstep]
    exact List.mem_cons_self _ _
  exact c4_status_iff_ok tFail env0 rawGood _ hmem

/-- C9: an invalid TriggerInput makes `trigger` raise
`HttpError(400, 'Validation Error')` carrying the per-field diagnostics,
with zero records written and zero transport calls. -/
theorem c9_validation_before_io (t : Nat → TransportResult) (env : Env)
    (raw : RawTriggerInput) (issues : List Issue)
    (h : parseTriggerInput raw = .error issues) :
    trigger t env raw = (.error ⟨400, "Validation Error", issues⟩, [], 0) := by
  simp [trigger, h]

/-- C9 witness: a raw input missing `requestUrl` produces the structured
requestUrl diagnostic, an empty write list and zero fetches. -/
theorem c9_validation_before_io_witness :
    parseTriggerInput rawMissingUrl = .error [⟨"requestUrl", "Required"⟩] ∧
      trigger tFail env0 rawMissingUrl =
        (.error ⟨400, "Validation Error", [⟨"requestUrl", "Required"⟩]⟩, [], 0) :=
  ⟨by decide, c9_validation_before_io tFail env0 rawMissingUrl _ (by decide)⟩


/-- C5 (counterexample): an input carrying id/idPrefix selectors parses
identically to one without them (zod strips unknown keys), and the
compiled plan still queries the `namespace-createdAt` index with key
condition `#namespace = :namespace` — no id-lookup mode exists. -/
theorem c5_counterexample :
    parseFetchLogsInput rawWithIdPfx =
      parseFetchLogsInput ⟨none, none, none, none, none, none, some "n", none, none, none⟩ ∧
      fetchLogsCompile rawWithIdPfx = .ok (fetchLogsPlan argsPlain) ∧
      (fetchLogsPlan argsPlain).index = some "namespace-createdAt" ∧
      (fetchLogsPlan argsPlain).queryExpression = "#namespace = :namespace" ∧
      jsLookup (fetchLogsPlan argsPlain).attributeNames "#id" = none := by
  refine ⟨by decide, by decide, by decide, by decide, by decide⟩

/-- C5 (amended): FetchLogsInput admits no id or id-prefix selector —
any such key is stripped by validation and cannot influence the plan —
and fetchLogs always queries the `namespace-createdAt` secondary index:
the key condition is on namespace, extended with the `__createdAt`
BETWEEN range when both bounds are present; everything else is filter. -/
theorem c5_no_id_mode (raw : RawFetchLogsInput) (args : FetchArgs)
    (_h : parseFetchLogsInput raw = .ok args) :
    parseFetchLogsInput raw = parseFetchLogsInput {raw with id := none, idPfx := none} ∧
      (fetchLogsPlan args).index = some "namespace-createdAt" ∧
      (fetchLogsPlan args).queryExpression =
        (match args.fromTs, args.toTs with
         | some _, some _ => "#namespace = :namespace AND #__createdAt BETWEEN :from AND :to"
         | _, _ => "#namespace = :namespace") ∧
      (fetchLogsPlan args).filterExpression =
        concatConditionExpression
          (if args.metadata.length ≠ 0 then
            String.intercalate " AND "
              (args.metadata.map (fun kv => "#metadata.#" ++ kv.1 ++ " = :" ++ kv.1))
          else "")
          (match args.status with
           | some _ => "#status = :status"
           | none => "") := by
  refine ⟨rfl, ?_, ?_, ?_⟩
  · rcases args with ⟨d, f, lim, md, ns, sk, st, tt⟩
    cases f <;> cases tt <;> cases st <;> by_cases hm : md.length = 0 <;>
      simp [fetchLogsPlan, hm]
  · rcases args with ⟨d, f, lim, md, ns, sk, st, tt⟩
    cases f <;> cases tt <;> cases st <;> by_cases hm : md.length = 0 <;>
      simp [fetchLogsPlan, hm, concatConditionExpression]
  · rcases args with ⟨d, f, lim, md, ns, sk, st, tt⟩
    cases f <;> cases tt <;> cases st <;> by_cases hm : md.length = 0 <;>
      simp [fetchLogsPlan, hm, mdFold_thd, concatConditionExpression] <;>
      (try split_ifs) <;> simp_all

/-- C5 witness: the amended statement at a concrete id-carrying input
with a status filter and a metadata constraint: the selectors are
stripped, the plan stays on the secondary index with the namespace key
condition, and the status/metadata constraints land in the residual
filter expression. -/
theorem c5_no_id_mode_witness :
    parseFetchLogsInput rawIdStatusMd =
      parseFetchLogsInput {rawIdStatusMd with id := none, idPfx := none} ∧
      (fetchLogsPlan argsIdStatusMd).index = some "namespace-createdAt" ∧
      (fetchLogsPlan argsIdStatusMd).queryExpression = "#namespace = :namespace" ∧
      (fetchLogsPlan argsIdStatusMd).filterExpression =
        "#metadata.#tenant = :tenant AND #status = :status" := by
  have h := c5_no_id_mode rawIdStatusMd argsIdStatusMd (by decide)
  refine ⟨h.1, h.2.1, ?_, ?_⟩
  · rw [h.2.2.1]
    decide
  · rw [h.2.2.2]
    decide

/-- C10: supplying exactly one of from/to still validates, and the
compiled plan is identical to the plan with neither bound (the range
condition is silently dropped unless both are present). -/
theorem c10_one_sided_range :
    (∀ args : FetchArgs, args.toTs = none →
      fetchLogsPlan args = fetchLogsPlan {args with fromTs := none}) ∧
      (∀ args : FetchArgs, args.fromTs = none →
        fetchLogsPlan args = fetchLogsPlan {args with toTs := none}) ∧
      parseFetchLogsInput rawFromOnly = .ok argsFromOnly ∧
      argsFromOnly.fromTs.isSome = true ∧ argsFromOnly.toTs = none := by
  refine ⟨?_, ?_, by decide, by decide, rfl⟩
  · rintro ⟨d, f, lim, md, ns, sk, st, tt⟩ h
    cases h
    cases f <;> rfl
  · rintro ⟨d, f, lim, md, ns, sk, st, tt⟩ h
    cases h
    cases tt <;> rfl

/-- C10 witness: the plan for from-only input coincides with the plan
for no range at all. -/
theorem c10_one_sided_range_witness :
    fetchLogsPlan argsFromOnly = fetchLogsPlan {argsFromOnly with fromTs := none} :=
  c10_one_sided_range.1 argsFromOnly rfl


/-- C6 (counterexample): a metadata key named `namespace` generates the
same `:namespace` placeholder as the namespace key condition and
overwrites its binding: the compiled plan binds `:namespace` to the
metadata value "m", not to the namespace "n", while both the key
condition and the filter reference `:namespace`. -/
theorem c6_counterexample :
    (fetchLogsPlan argsMetaNs).queryExpression = "#namespace = :namespace" ∧
      (fetchLogsPlan argsMetaNs).filterExpression = "#metadata.#namespace = :namespace" ∧
      (fetchLogsPlan argsMetaNs).attributeValues = [(":namespace", "m")] ∧
      argsMetaNs.nspace = "n" ∧
      jsLookup (fetchLogsPlan argsMetaNs).attributeValues ":namespace" ≠ some "n" := by
  refine ⟨by decide, by decide, by decide, by decide, by decide⟩

/-- C6 (amended): both placeholder maps are always present, and as long
as the metadata keys are pairwise distinct and none of them equals one
of the reserved stems (namespace, __createdAt, metadata, status, from,
to), every referenced attribute and value is bound under its own
placeholder: `:namespace` holds the namespace, each metadata key `k`
keeps `#k`/`:k`, `:status` holds the status and `:from`/`:to` the range
bounds; a metadata key equal to a reserved stem instead collides and
overwrites the built-in binding. -/
theorem c6_placeholder_uniqueness (args : FetchArgs)
    (hnd : (args.metadata.map Prod.fst).Nodup)
    (hres : ∀ k ∈ args.metadata.map Prod.fst, k ∉ reservedStems) :
    jsLookup (fetchLogsPlan args).attributeNames "#namespace" = some "namespace" ∧
      jsLookup (fetchLogsPlan args).attributeValues ":namespace" = some args.nspace ∧
      (∀ kv ∈ args.metadata,
        jsLookup (fetchLogsPlan args).attributeNames ("#" ++ kv.1) = some kv.1 ∧
          jsLookup (fetchLogsPlan args).attributeValues (":" ++ kv.1) = some kv.2) ∧
      (∀ st, args.status = some st →
        jsLookup (fetchLogsPlan args).attributeValues ":status" = some (statusStr st)) ∧
      (∀ fv tv, args.fromTs = some fv → args.toTs = some tv →
        jsLookup (fetchLogsPlan args).attributeValues ":from" = some fv ∧
          jsLookup (fetchLogsPlan args).attributeValues ":to" = some tv) := by
  rcases args with ⟨d, f, lim, md, ns, sk, st, tt⟩
  simp only at hnd hres
  have hres' : ∀ kv ∈ md, kv.1 ≠ "namespace" ∧ kv.1 ≠ "__createdAt" ∧ kv.1 ≠ "metadata" ∧
      kv.1 ≠ "status" ∧ kv.1 ≠ "from" ∧ kv.1 ≠ "to" := by
    intro kv hkv
    have := hres kv.1 (List.mem_map.mpr ⟨kv, hkv, rfl⟩)
    simpa [reservedStems] using this
  have hns : md.reverse.find? (fun kv : String × String => (":" ++ kv.1) == ":namespace") = none := by
    apply find?_rev_absent
    intro kv hkv
    exact pfx_ne_of_stem_ne ":" kv.1 "namespace" ((hres' kv hkv).1)
  have hfrom : md.reverse.find? (fun kv : String × String => (":" ++ kv.1) == ":from") = none := by
    apply find?_rev_absent
    intro kv hkv
    exact pfx_ne_of_stem_ne ":" kv.1 "from" ((hres' kv hkv).2.2.2.2.1)
  have hto : md.reverse.find? (fun kv : String × String => (":" ++ kv.1) == ":to") = none := by
    apply find?_rev_absent
    intro kv hkv
    exact pfx_ne_of_stem_ne ":" kv.1 "to" ((hres' kv hkv).2.2.2.2.2)
  have hnsN : md.reverse.find? (fun kv : String × String => ("#" ++ kv.1) == "#namespace") = none := by
    apply find?_rev_absent
    intro kv hkv
    exact pfx_ne_of_stem_ne "#" kv.1 "namespace" ((hres' kv hkv).1)
  refine ⟨?_, ?_, ?_, ?_, ?_⟩
  · cases st <;> by_cases hm : md.length = 0 <;> cases f <;> cases tt <;>
      simp +decide [fetchLogsPlan, hm, mdFold_fst, jsLookup_foldl_jsInsert, hnsN,
        jsLookup_jsInsert, jsLookup_cons]
  · cases st <;> by_cases hm : md.length = 0 <;> cases f <;> cases tt <;>
      simp +decide [fetchLogsPlan, hm, mdFold_snd, jsLookup_foldl_jsInsert, hns,
        jsLookup_jsInsert, jsLookup_cons]
  · intro kv hkv
    have hmdN : (md.map (fun kv : String × String => "#" ++ kv.1)).Nodup := by
      have : md.map (fun kv : String × String => "#" ++ kv.1) =
          (md.map Prod.fst).map (fun k => "#" ++ k) := by
        rw [List.map_map]
        rfl
      rw [this]
      exact hnd.map (fun a b h => str_append_inj "#" a b h)
    have hmdV : (md.map (fun kv : String × String => ":" ++ kv.1)).Nodup := by
      have : md.map (fun kv : String × String => ":" ++ kv.1) =
          (md.map Prod.fst).map (fun k => ":" ++ k) := by
        rw [List.map_map]
        rfl
      rw [this]
      exact hnd.map (fun a b h => str_append_inj ":" a b h)
    have hfindN := find?_rev_nodup (fun kv : String × String => "#" ++ kv.1) md kv hkv hmdN
    have hfindV := find?_rev_nodup (fun kv : String × String => ":" ++ kv.1) md kv hkv hmdV
    have hm : ¬(md.length = 0) := by
      intro hlen
      rw [List.length_eq_zero] at hlen
      subst hlen
      cases hkv
    have hneSt : ("#" ++ kv.1 : String) ≠ "#status" :=
      pfx_ne_of_stem_ne "#" kv.1 "status" (hres' kv hkv).2.2.2.1
    have hneStV : (":" ++ kv.1 : String) ≠ ":status" :=
      pfx_ne_of_stem_ne ":" kv.1 "status" (hres' kv hkv).2.2.2.1
    constructor
    · cases st <;> cases f <;> cases tt <;>
        simp +decide [fetchLogsPlan, hm, mdFold_fst, jsLookup_foldl_jsInsert, hfindN,
          jsLookup_jsInsert, if_neg hneSt]
    · cases st <;> cases f <;> cases tt <;>
        simp +decide [fetchLogsPlan, hm, mdFold_snd, jsLookup_foldl_jsInsert, hfindV,
          jsLookup_jsInsert, if_neg hneStV]
  · intro stv hst
    subst hst
    by_cases hm : md.length = 0 <;> cases f <;> cases tt <;>
      simp +decide [fetchLogsPlan, hm, jsLookup_jsInsert]
  · intro fv tv hf ht
    subst hf
    subst ht
    constructor
    · cases st <;> by_cases hm : md.length = 0 <;>
        simp +decide [fetchLogsPlan, hm, mdFold_snd, jsLookup_foldl_jsInsert, hfrom,
          jsLookup_jsInsert, jsLookup_cons]
    · cases st <;> by_cases hm : md.length = 0 <;>
        simp +decide [fetchLogsPlan, hm, mdFold_snd, jsLookup_foldl_jsInsert, hto,
          jsLookup_jsInsert, jsLookup_cons]

/-- C6 witness: a plan with a range, a status filter and a
non-colliding metadata key keeps every binding under its own
placeholder. -/
theorem c6_placeholder_uniqueness_witness :
    jsLookup (fetchLogsPlan ⟨false, some "2024-01-01T00:00:00Z", 100, [("tenant", "t1")],
        "n", none, some .FAIL, some "2024-01-02T00:00:00Z"⟩).attributeNames "#namespace" =
      some "namespace" ∧
      jsLookup (fetchLogsPlan ⟨false, some "2024-01-01T00:00:00Z", 100, [("tenant", "t1")],
        "n", none, some .FAIL, some "2024-01-02T00:00:00Z"⟩).attributeValues ":namespace" =
      some "n" := by
  have h := c6_placeholder_uniqueness ⟨false, some "2024-01-01T00:00:00Z", 100,
    [("tenant", "t1")], "n", none, some .FAIL, some "2024-01-02T00:00:00Z"⟩
    (by decide) (by decide)
  exact ⟨h.1, h.2.1⟩


/-- C7: for GET/HEAD/DELETE with a non-empty body, the body is merged
into the URL query parameters (body overriding same-key params, adding
new keys, preserving unmatched ones) and the wire body is null; the
concrete example merges as specified; with a null/empty body a canonical
URL is returned unmodified. -/
theorem c7_get_merge :
    (∀ (s : String) (u : UrlParts) (hdrs : Option (List (String × String)))
        (b : List (String × JSValue)) (m : Method),
      parseURL s = some u → m ≠ .POST → m ≠ .PUT →
      createFetchRequest ⟨some b, hdrs, m, s⟩ =
        some ⟨none, normHeaders hdrs, m,
          u.protocol ++ "//" ++ u.host ++ u.pathname ++
            qsWithPfx (jsSpread (strParams (fromEntries u.params)) b)⟩) ∧
      (∀ (params b : List (String × JSValue)) (k : String),
        (b.map Prod.fst).Nodup →
        jsLookup (jsSpread params b) k =
          if (jsLookup b k).isSome then jsLookup b k else jsLookup params k) ∧
      createFetchRequest ⟨some [("a", .num 1), ("b", .num 2), ("c", .num 3)], none, .GET,
          "https://h/p?a=1&b=1"⟩ =
        some ⟨none, [], .GET, "https://h/p?a=1&b=2&c=3"⟩ ∧
      (∀ (s : String) (u : UrlParts) (hdrs : Option (List (String × String))) (m : Method),
        parseURL s = some u → (u.params.map Prod.fst).Nodup → renderURL u = s →
        m ≠ .POST → m ≠ .PUT →
        createFetchRequest ⟨none, hdrs, m, s⟩ = some ⟨none, normHeaders hdrs, m, s⟩ ∧
          createFetchRequest ⟨some [], hdrs, m, s⟩ = some ⟨none, normHeaders hdrs, m, s⟩) := by
  refine ⟨?_, ?_, by decide, ?_⟩
  · intro s u hdrs b m hp hm1 hm2
    have hmp : ¬(m = .POST ∨ m = .PUT) := by
      rintro (rfl | rfl)
      · exact hm1 rfl
      · exact hm2 rfl
    simp [createFetchRequest, hp, hmp]
  · intro params b k hb
    exact jsLookup_jsSpread params b k hb
  · intro s u hdrs m hp hnd hrender hm1 hm2
    have hmp : ¬(m = .POST ∨ m = .PUT) := by
      rintro (rfl | rfl)
      · exact hm1 rfl
      · exact hm2 rfl
    have hfe : fromEntries u.params = u.params := fromEntries_nodup u.params hnd
    constructor
    · simp [createFetchRequest, hp, hmp, hfe, jsSpread]
      exact hrender
    · simp [createFetchRequest, hp, hmp, hfe, jsSpread]
      exact hrender

/-- C7 witness: the merge example driven through the universal branch of
the theorem. -/
theorem c7_get_merge_witness :
    createFetchRequest ⟨some [("a", .num 1), ("b", .num 2), ("c", .num 3)], none, .GET,
        "https://h/p?a=1&b=1"⟩ =
      some ⟨none, [], .GET, "https://h/p?a=1&b=2&c=3"⟩ := by
  have h := c7_get_merge.1 "https://h/p?a=1&b=1" ⟨"https:", "h", "/p", [("a", "1"), ("b", "1")]⟩
    none [("a", .num 1), ("b", .num 2), ("c", .num 3)] .GET (by decide) (by decide) (by decide)
  rw [h]
  decide

/-- C8 (counterexample): the content-type match is case-sensitive on the
header value: an uppercase `APPLICATION/X-WWW-FORM-URLENCODED` header
falls through to the JSON branch instead of producing the form-encoded
string the claimed case-insensitive match would require. -/
theorem c8_counterexample :
    createFetchRequest ⟨some [("a", .num 1)],
        some [("content-type", "APPLICATION/X-WWW-FORM-URLENCODED")], .POST, "https://h/p"⟩ =
      some ⟨some (.str "\x7b\"a\":1\x7d"),
        [("content-type", "APPLICATION/X-WWW-FORM-URLENCODED")], .POST, "https://h/p"⟩ ∧
      createFetchRequest ⟨some [("a", .num 1)],
        some [("content-type", "application/x-www-form-urlencoded")], .POST, "https://h/p"⟩ =
      some ⟨some (.str "a=1"),
        [("content-type", "application/x-www-form-urlencoded")], .POST, "https://h/p"⟩ ∧
      WireBody.str "\x7b\"a\":1\x7d" ≠ WireBody.str "a=1" := by
  refine ⟨by decide, by decide, by decide⟩

/-- C8 (amended): for POST/PUT with a non-empty body the wire encoding
is selected by a case-sensitive substring match on the content-type
header value (the header name lookup is case-insensitive): containing
`application/x-www-form-urlencoded` gives the form string without
leading `?`, containing `multipart/form-data` gives a multipart payload
with one field per top-level key, anything else gives JSON; a null/empty
body gives a null wire body and an unchanged URL. -/
theorem c8_content_type_branching :
    (∀ (s : String) (hdrs : Option (List (String × String)))
        (b : List (String × JSValue)) (m : Method) (u : UrlParts),
      parseURL s = some u → (m = .POST ∨ m = .PUT) → b ≠ [] →
      createFetchRequest ⟨some b, hdrs, m, s⟩ =
        some ⟨some (
          if ctIncludes (headersGet (normHeaders hdrs) "content-type")
              "application/x-www-form-urlencoded" then
            .str (qsNoPfx b)
          else if ctIncludes (headersGet (normHeaders hdrs) "content-type")
              "multipart/form-data" then
            .formData (b.map (fun p => (p.1, p.2.plain)))
          else .str (jsonStringify b)), normHeaders hdrs, m, s⟩) ∧
      (∀ (s : String) (hdrs : Option (List (String × String))) (m : Method) (u : UrlParts),
        parseURL s = some u → (m = .POST ∨ m = .PUT) →
        createFetchRequest ⟨none, hdrs, m, s⟩ = some ⟨none, normHeaders hdrs, m, s⟩ ∧
          createFetchRequest ⟨some [], hdrs, m, s⟩ = some ⟨none, normHeaders hdrs, m, s⟩) ∧
      createFetchRequest ⟨some [("a", .num 1), ("b", .num 2)],
          some [("content-type", "application/x-www-form-urlencoded")], .POST, "https://h/p"⟩ =
        some ⟨some (.str "a=1&b=2"),
          [("content-type", "application/x-www-form-urlencoded")], .POST, "https://h/p"⟩ ∧
      createFetchRequest ⟨some [("a", .num 1), ("b", .num 2)],
          some [("Content-Type", "multipart/form-data; boundary=x")], .POST, "https://h/p"⟩ =
        some ⟨some (.formData [("a", "1"), ("b", "2")]),
          [("content-type", "multipart/form-data; boundary=x")], .POST, "https://h/p"⟩ ∧
      createFetchRequest ⟨some [("a", .num 1), ("b", .num 2)], none, .POST, "https://h/p"⟩ =
        some ⟨some (.str "\x7b\"a\":1,\"b\":2\x7d"), [], .POST, "https://h/p"⟩ := by
  refine ⟨?_, ?_, by decide, by decide, by decide⟩
  · intro s hdrs b m u hp hm hb
    have hlen : b.length ≠ 0 := by simpa using hb
    rcases hm with rfl | rfl <;> simp [createFetchRequest, hp, hlen] <;> split_ifs <;> rfl
  · intro s hdrs m u hp hm
    rcases hm with rfl | rfl <;> exact ⟨by simp [createFetchRequest, hp], by simp [createFetchRequest, hp]⟩

/-- C8 witness: the form-urlencoded branch applied at the concrete POST
example. -/
theorem c8_content_type_branching_witness :
    createFetchRequest ⟨some [("a", .num 1), ("b", .num 2)],
        some [("content-type", "application/x-www-form-urlencoded")], .POST, "https://h/p"⟩ =
      some ⟨some (.str "a=1&b=2"),
        [("content-type", "application/x-www-form-urlencoded")], .POST, "https://h/p"⟩ := by
  have h := c8_content_type_branching.1 "https://h/p"
    (some [("content-type", "application/x-www-form-urlencoded")])
    [("a", .num 1), ("b", .num 2)] .POST ⟨"https:", "h", "/p", []⟩
    (by decide) (Or.inl rfl) (by decide)
  rw [h]
  decide

end Webhooks
